import Mathlib

/-! Verification of the environment lifecycle and sandboxed file-access
layer: a shallow embedding of `src/server.py` of the `mcp-python-executor`
repository, with theorems settling the specification's claims about it.

Modelling conventions:

* A filesystem path is a `List String` of components of an absolute POSIX
  path (so `["home", "u", "envs", "abc"]` stands for `/home/u/envs/abc`).
* A Python `pathlib` path handed to the server as a filename is modelled
  pre-parsed, as its absoluteness flag together with its components
  (Python's `Path` constructor drops empty and `"."` components and records
  whether the string started with `/`); `".."` components are kept.
* `Path.resolve()` is modelled lexically (`..` elimination from the left,
  clamped at the root); symlinks are outside the model.
* Python `str` values that carry file content are modelled as lists of
  Unicode code points (`List Nat`); byte strings as lists of byte values.
* The base directory `ENVS_DIR = Path.home() / ".mcp-python-executor" / "envs"`
  depends on the runtime home directory, so the functions take the
  environments root as an explicit `envsDir` parameter.
* Subprocess execution and the on-disk state are external effects; they are
  passed to the embedded functions as explicit oracle arguments (the outcome
  of `subprocess.run`, the set of existing paths, the stored files).
-/

/-- The string representation of an absolute path as a list of characters:
`/` followed by the components separated by `/`; the bare root prints as `/`.
Matches `str(pathlib.Path(...))` for absolute paths. -/
def pathChars (p : List String) : List Char :=
  p.flatMap (fun seg => '/' :: seg.data)

/-- String form of an absolute path, with the root special case. -/
def pathStr (p : List String) : List Char :=
  if p = [] then ['/'] else pathChars p

/-- Lexical `Path.resolve()`: process components left to right, a `".."`
component removes the last accumulated component (clamped at the root). -/
def resolveComps (acc : List String) : List String → List String
  | [] => acc
  | c :: rest =>
    if c = ".." then resolveComps acc.dropLast rest
    else resolveComps (acc ++ [c]) rest

/-- A well-formed path component: nonempty and not a dot component.
Real directory components produced by `pathlib` satisfy this. -/
def WfSeg (s : String) : Prop := s ≠ "" ∧ s ≠ "." ∧ s ≠ ".."

/-- All components of the path are well-formed. -/
def WfPath (p : List String) : Prop := ∀ s ∈ p, WfSeg s

instance : DecidablePred WfSeg := fun s => by
  unfold WfSeg; infer_instance

instance : DecidablePred WfPath := fun p => by
  unfold WfPath; infer_instance

/-- A filename as handed to `pathlib`: absoluteness flag and components. -/
abbrev PyPath := Bool × List String

/-- The characters kept by the sanitizer in `get_env_path` (src/server.py:26):
`c.isalnum() or c in ("-", "_")`.  We model the ASCII fragment of Python's
Unicode-aware `str.isalnum`. -/
def allowedChar (c : Char) : Bool := c.isAlphanum || c = '-' || c = '_'

/-- Python `str.strip()` with no argument: remove leading and trailing
whitespace. -/
def stripWs (l : List Char) : List Char :=
  ((l.dropWhile Char.isWhitespace).reverse.dropWhile Char.isWhitespace).reverse

/-- The sanitized identifier computed in `get_env_path` (src/server.py:26):
`"".join(c for c in env_id if c.isalnum() or c in ("-", "_")).strip()`. -/
def sanitize_id (envId : List Char) : List Char :=
  stripWs (envId.filter allowedChar)

/-- Error taxonomy of the layer (spec §7); each constructor corresponds to
one `raise` site in src/server.py. -/
inductive Err where
  | invalidIdentifier
  | pathTraversal
  | envNotFound
  | fileNotFound
  | fileTooLarge
  | initializationFailed (stderr : String)
  | encodeFailed
  deriving DecidableEq

deriving instance DecidableEq for Except

/-- Embedding of `get_env_path` (src/server.py:24-29): sanitize the identifier, reject it
if the sanitized form is empty, else join it to the environments root. -/
def get_env_path (envsDir : List String) (envId : List Char) :
    Except Err (List String) :=
  let safeId := sanitize_id envId
  if safeId = [] then .error .invalidIdentifier
  else .ok (envsDir ++ [String.mk safeId])

/-- Embedding of `get_safe_file_path` (src/server.py:32-38): join the filename to the
environment root (an absolute filename replaces the root, as with
`pathlib`'s `/` operator), resolve, and accept iff the resolved string
starts with the resolved root's string. -/
def get_safe_file_path (envPath : List String) (filename : PyPath) :
    Except Err (List String) :=
  let joined := if filename.1 then filename.2 else envPath ++ filename.2
  let requested := resolveComps [] joined
  let envResolved := resolveComps [] envPath
  if (pathStr envResolved).isPrefixOf (pathStr requested) then .ok requested
  else .error .pathTraversal

/-! ## Text and transport encodings

`Path.write_text` encodes with UTF-8 and `Path.read_bytes` / `.decode("utf-8")`
/ `.decode("latin-1")` appear in `_read_file`; `base64.b64encode` is used for
the binary and image transport payloads.  These are Python standard-library
collaborators of the core; they are embedded here bit-for-bit. -/

/-- A code point Python's UTF-8 codec will encode: in range and not a
surrogate (`str.encode("utf-8")` raises on surrogates). -/
def ValidCodepoint (c : Nat) : Prop :=
  c < 0x110000 ∧ ¬(0xD800 ≤ c ∧ c < 0xE000)

instance : DecidablePred ValidCodepoint := fun c => by
  unfold ValidCodepoint; infer_instance

/-- UTF-8 encoding of one code point (1 to 4 bytes). -/
def utf8EncodeChar (c : Nat) : List Nat :=
  if c < 0x80 then [c]
  else if c < 0x800 then [0xC0 + c / 0x40, 0x80 + c % 0x40]
  else if c < 0x10000 then
    [0xE0 + c / 0x1000, 0x80 + c / 0x40 % 0x40, 0x80 + c % 0x40]
  else
    [0xF0 + c / 0x40000, 0x80 + c / 0x1000 % 0x40, 0x80 + c / 0x40 % 0x40,
      0x80 + c % 0x40]

/-- UTF-8 encoding of a Python string (list of code points). -/
def utf8Encode (s : List Nat) : List Nat := s.flatMap utf8EncodeChar

/-- Strict UTF-8 decoding as a byte-at-a-time state machine.  State:
`need` continuation bytes still expected, `acc` the code point bits decoded
so far, and `lo`/`hi` the inclusive bounds the next continuation byte must
satisfy (tightened after `E0`, `ED`, `F0`, `F4` lead bytes, which is how
overlong forms, surrogates and values above U+10FFFF are rejected). -/
def utf8Run : Nat → Nat → Nat → Nat → List Nat → Option (List Nat)
  | 0, _, _, _, [] => some []
  | 0, _, _, _, b :: rest =>
    if b < 0x80 then (utf8Run 0 0 0 0 rest).map (b :: ·)
    else if b < 0xC2 then none
    else if b < 0xE0 then utf8Run 1 (b - 0xC0) 0x80 0xBF rest
    else if b = 0xE0 then utf8Run 2 0 0xA0 0xBF rest
    else if b = 0xED then utf8Run 2 0xD 0x80 0x9F rest
    else if b < 0xF0 then utf8Run 2 (b - 0xE0) 0x80 0xBF rest
    else if b = 0xF0 then utf8Run 3 0 0x90 0xBF rest
    else if b < 0xF4 then utf8Run 3 (b - 0xF0) 0x80 0xBF rest
    else if b = 0xF4 then utf8Run 3 4 0x80 0x8F rest
    else none
  | _ + 1, _, _, _, [] => none
  | 1, acc, lo, hi, b :: rest =>
    if lo ≤ b ∧ b ≤ hi then
      (utf8Run 0 0 0 0 rest).map ((acc * 0x40 + (b - 0x80)) :: ·)
    else none
  | need + 2, acc, lo, hi, b :: rest =>
    if lo ≤ b ∧ b ≤ hi then
      utf8Run (need + 1) (acc * 0x40 + (b - 0x80)) 0x80 0xBF rest
    else none

/-- Strict UTF-8 decoding (`bytes.decode("utf-8")`): rejects lone
continuation bytes, truncated sequences, overlong forms, surrogates, and
values above U+10FFFF; returns `none` exactly when Python raises
`UnicodeDecodeError`. -/
def utf8Decode (data : List Nat) : Option (List Nat) := utf8Run 0 0 0 0 data

/-- Latin-1 decoding (`bytes.decode("latin-1")`): each byte value is its own
code point; total on byte strings. -/
def latin1Decode (data : List Nat) : List Nat := data

/-- The text decoding of `_read_file` (src/server.py:198-201): UTF-8 with a
Latin-1 fallback on decode failure, so it always yields a string. -/
def decodeText (data : List Nat) : List Nat :=
  (utf8Decode data).getD (latin1Decode data)

/-- The base64 alphabet. -/
def base64Alphabet : List Char :=
  "ABCDEFGHIJKLMNOPQRSTUVWXYZabcdefghijklmnopqrstuvwxyz0123456789+/".data

/-- Python's `base64.b64encode` on a byte string, as characters. -/
def base64Encode : List Nat → List Char
  | [] => []
  | [a] =>
    [base64Alphabet.getD (a / 4) 'A', base64Alphabet.getD (a % 4 * 16) 'A',
      '=', '=']
  | [a, b] =>
    [base64Alphabet.getD (a / 4) 'A',
      base64Alphabet.getD (a % 4 * 16 + b / 16) 'A',
      base64Alphabet.getD (b % 16 * 4) 'A', '=']
  | a :: b :: c :: rest =>
    base64Alphabet.getD (a / 4) 'A' ::
      base64Alphabet.getD (a % 4 * 16 + b / 16) 'A' ::
      base64Alphabet.getD (b % 16 * 4 + c / 64) 'A' ::
      base64Alphabet.getD (c % 64) 'A' :: base64Encode rest

-- sanity checks of the codecs against Python's behaviour
example : utf8Encode [0x48, 0xE9, 0x4E2D, 0x1F600] =
    [0x48, 0xC3, 0xA9, 0xE4, 0xB8, 0xAD, 0xF0, 0x9F, 0x98, 0x80] := by decide
example : utf8Decode [0x48, 0xC3, 0xA9, 0xE4, 0xB8, 0xAD, 0xF0, 0x9F, 0x98,
    0x80] = some [0x48, 0xE9, 0x4E2D, 0x1F600] := by decide
example : utf8Decode [0xC0, 0x80] = none := by decide
example : utf8Decode [0xED, 0xA0, 0x80] = none := by decide
example : utf8Decode [0xFF] = none := by decide
example : decodeText [0xFF, 0x41] = [0xFF, 0x41] := by decide
example : base64Encode [0x4D, 0x61, 0x6E] = "TWFu".data := by decide
example : base64Encode [0x4D, 0x61] = "TWE=".data := by decide
example : base64Encode [0x00, 0x01, 0x02, 0x03] = "AAECAw==".data := by decide

/-! ## Process runner -/

/-- Python's `subprocess.CompletedProcess` as used by `run_uv_command`: argument
list, exit code, captured stdout and stderr (text mode). -/
structure CompletedProcess where
  args : List String
  returncode : Int
  stdout : String
  stderr : String
  deriving DecidableEq

/-- What `subprocess.run` did on one invocation: ran to completion,
exceeded the timeout (`subprocess.TimeoutExpired`), or could not start /
failed otherwise (any other `Exception`, carrying `str(e)`).  This is the
oracle input standing for the external process execution. -/
inductive SubprocessOutcome where
  | completed (result : CompletedProcess)
  | timedOut
  | startFailure (msg : String)
  deriving DecidableEq

/-- The wall-clock timeout passed to `subprocess.run` (src/server.py:57). -/
def uv_timeout_seconds : Nat := 300

/-- The three variables popped from the child environment in
`run_uv_command` (src/server.py:45-47). -/
def stripped_env_vars : List String :=
  ["VIRTUAL_ENV", "PYTHONPATH", "PYTHONHOME"]

/-- The child process environment built in `run_uv_command`
(src/server.py:44-47): a copy of `os.environ` with the three
isolation-breaking variables removed.  `os.environ` is modelled as an
association list with distinct keys; `pop` removes the key's entry. -/
def cleaned_env (environ : List (String × String)) : List (String × String) :=
  environ.filter (fun p => !(stripped_env_vars.contains p.1))

/-- Embedding of `run_uv_command` (src/server.py:41-70): returns the completed process
unchanged; converts a timeout or any start failure into a synthetic
`CompletedProcess` with exit code 1, empty stdout and an explanatory
stderr.  Total by construction — the embedding of "never raises". -/
def run_uv_command (args : List String) (outcome : SubprocessOutcome) :
    CompletedProcess :=
  match outcome with
  | .completed r => r
  | .timedOut =>
    { args := args, returncode := 1, stdout := "",
      stderr := "Error: Command timed out after 300 seconds." }
  | .startFailure msg =>
    { args := args, returncode := 1, stdout := "",
      stderr := "Error: " ++ msg }

/-! ## Environment lifecycle -/

/-- Result statuses returned by `_create_env`. -/
inductive CreateStatus where
  | alreadyExists
  | created
  | createdWithWarning (warning : String)
  deriving DecidableEq

/-- Embedding of `_create_env` (src/server.py:73-94), acting on the set of existing
filesystem paths (each a `List String`).  Oracles: `initRes` is the outcome
of `uv init --lib`, `initCreated` the paths that invocation created,
`addRes` the outcome of `uv add` when initial packages are requested.
Returns the final filesystem together with the result or raised error;
on a non-zero `init` exit, `shutil.rmtree(env_path)` removes the
environment directory and everything below it before the error is raised. -/
def create_env (envsDir : List String) (fs : List (List String))
    (envId : List Char) (packages : Option (List String))
    (initRes : CompletedProcess) (initCreated : List (List String))
    (addRes : CompletedProcess) :
    List (List String) × Except Err CreateStatus :=
  match get_env_path envsDir envId with
  | .error e => (fs, .error e)
  | .ok envPath =>
    if envPath ∈ fs then (fs, .ok .alreadyExists)
    else
      let fs1 := fs ++ envPath :: initCreated
      if initRes.returncode ≠ 0 then
        (fs1.filter (fun p => !(envPath.isPrefixOf p)),
          .error (.initializationFailed initRes.stderr))
      else
        match packages with
        | some (_ :: _) =>
          if addRes.returncode ≠ 0 then
            (fs1, .ok (.createdWithWarning addRes.stderr))
          else (fs1, .ok .created)
        | _ => (fs1, .ok .created)

/-! ## File transport -/

/-- A stored file: path, `stat().st_size`, and content bytes. -/
abbrev FileEntry := List String × Nat × List Nat

/-- Look a path up in the stored files (the filesystem oracle). -/
def lookupFile (p : List String) : List FileEntry → Option (Nat × List Nat)
  | [] => none
  | (q, e) :: rest => if p = q then some e else lookupFile p rest

/-- Store bytes at a path: the new entry shadows any previous one (its
declared stat size is the byte count, as for a freshly written file). -/
def setFile (p : List String) (bytes : List Nat) (files : List FileEntry) :
    List FileEntry :=
  (p, bytes.length, bytes) :: files

/-- Does the guessed media type start with the given literal?  Models
Python's `mime_type and mime_type.startswith(...)` where `mime_type` is
`None` or a string. -/
def mimeStartsWith (guess : Option String) (lit : String) : Bool :=
  match guess with
  | some m => lit.data.isPrefixOf m.data
  | none => false

/-- Embedding of `_write_file` (src/server.py:139-150): check the environment exists,
confine the path, write the content (UTF-8 encoded; Python raises on
surrogates, which the function's `except` turns into an error), and report
`bytes_written = len(content)` — the code point count of the string.
`mkdir(parents=True)` only affects directories, which the file store does
not track.  Returns the new file store and the reported count. -/
def write_file (envsDir : List String) (dirs : List (List String))
    (files : List FileEntry) (envId : List Char) (filename : PyPath)
    (content : List Nat) : Except Err (List FileEntry × Nat) :=
  match get_env_path envsDir envId with
  | .error e => .error e
  | .ok envPath =>
    if envPath ∈ dirs then
      match get_safe_file_path envPath filename with
      | .error e => .error e
      | .ok filePath =>
        if ∀ c ∈ content, ValidCodepoint c then
          .ok (setFile filePath (utf8Encode content) files, content.length)
        else .error .encodeFailed
    else .error .envNotFound

/-- The three result shapes of `_read_file`: `ImageContent` (base64 data
and media type), the binary dict, and the text dict. -/
inductive ReadResult where
  | image (data : List Char) (mimeType : String)
  | binaryFile (filename : PyPath) (mimeType : String) (content : List Char)
  | textFile (filename : PyPath) (mimeType : String) (content : List Nat)
  deriving DecidableEq

/-- Embedding of `_read_file` (src/server.py:153-213): check the environment exists,
confine the path, look the file up, reject it if the stat size exceeds
10 MiB (before its content is used), then classify: image iff the guessed
media type starts with `image/`; else binary iff a null byte occurs in the
first 1024 content bytes; else text, decoded as UTF-8 with Latin-1
fallback.  `mimeGuess` is the oracle standing for
`mimetypes.guess_type(file_path)`, a pure function of the filename. -/
def read_file (envsDir : List String) (dirs : List (List String))
    (files : List FileEntry) (envId : List Char) (filename : PyPath)
    (mimeGuess : Option String) : Except Err ReadResult :=
  match get_env_path envsDir envId with
  | .error e => .error e
  | .ok envPath =>
    if envPath ∈ dirs then
      match get_safe_file_path envPath filename with
      | .error e => .error e
      | .ok filePath =>
        match lookupFile filePath files with
        | none => .error .fileNotFound
        | some (sz, data) =>
          if sz > 10 * 1024 * 1024 then .error .fileTooLarge
          else if mimeStartsWith mimeGuess "image/" then
            .ok (.image (base64Encode data) (mimeGuess.getD "image/png"))
          else if 0 ∈ data.take 1024 then
            .ok (.binaryFile filename
              (mimeGuess.getD "application/octet-stream") (base64Encode data))
          else
            .ok (.textFile filename (mimeGuess.getD "text/plain")
              (decodeText data))
    else .error .envNotFound

/-! ## Concrete fixtures used by evaluations and witnesses -/

/-- A concrete environments root standing for
`/home/user/.mcp-python-executor/envs`. -/
def demoEnvsDir : List String := ["home", "user", ".mcp-python-executor", "envs"]

/-- The root of a concrete environment `abc`. -/
def demoRoot : List String := demoEnvsDir ++ ["abc"]

/-- A concrete process environment. -/
def demoEnviron : List (String × String) :=
  [("PATH", "/usr/bin"), ("VIRTUAL_ENV", "/srv/venv"), ("PYTHONPATH", "/srv/lib")]

/-! ## Helper lemmas -/

/-- Unfolding of `List.lookup` on a cons cell, with propositional equality. -/
theorem lookup_cons_str (k a b : String) (t : List (String × String)) :
    List.lookup k ((a, b) :: t) = if k = a then some b else List.lookup k t := by
  simp only [List.lookup]
  by_cases h : k = a
  · subst h; simp
  · have hb : (k == a) = false := by simp [h]
    simp [hb, h]

/-- Boolean `List.contains` agrees with membership on `String` lists. -/
theorem contains_eq_mem_str (l : List String) (a : String) :
    l.contains a = true ↔ a ∈ l := by
  simp [List.contains_iff_exists_mem_beq]

-- quick sanity checks of the model
example : pathStr ["a", "bc"] = ['/', 'a', '/', 'b', 'c'] := by decide
example : resolveComps [] ["a", "b", "..", "c"] = ["a", "c"] := rfl
example : resolveComps [] ["..", "a"] = ["a"] := rfl
example :
    get_safe_file_path ["envs", "abc"] (false, ["..", "abcd", "x"]) =
      .ok ["envs", "abcd", "x"] := by decide
example :
    get_safe_file_path ["envs", "abc"] (false, [".."]) =
      .error .pathTraversal := by decide
example :
    get_env_path ["envs"] "my-env".data = .ok ["envs", "my-env"] := by decide
example : get_env_path ["envs"] "...".data = .error .invalidIdentifier := by
  decide

/-! ## Claim C1 — path confinement of `get_safe_file_path` -/

/-- C1: the confinement guard is broken.  Evaluating `get_safe_file_path`
at root `/home/user/.mcp-python-executor/envs/abc` and filename
`../abcd/x` shows the guard accepting the resolved path
`/home/user/.mcp-python-executor/envs/abcd/x`, which is not a descendant
of the root: the `startswith` string test also admits sibling directories
whose name extends the root's last component, so a `..` traversal can
escape the environment root. -/
theorem safe_path_sibling_escape :
    get_safe_file_path demoRoot (false, ["..", "abcd", "x"]) =
      .ok (demoEnvsDir ++ ["abcd", "x"]) ∧
    demoRoot.isPrefixOf (demoEnvsDir ++ ["abcd", "x"]) = false := by decide

/-! ## Claim C2 — `run_uv_command` failure shapes -/

/-- C2: `run_uv_command` is total (never surfaces a language-level fault):
on timeout it returns the synthetic record with exit code 1, empty stdout
and the explanatory stderr; an inability to start the process is converted
into the same synthetic shape carrying the exception text; a completed
process is returned unchanged; and the wall-clock timeout is 300 seconds. -/
theorem run_uv_command_failure_shape :
    ∀ (args : List String) (msg : String) (r : CompletedProcess),
      run_uv_command args .timedOut =
        { args := args, returncode := 1, stdout := "",
          stderr := "Error: Command timed out after 300 seconds." } ∧
      run_uv_command args (.startFailure msg) =
        { args := args, returncode := 1, stdout := "",
          stderr := "Error: " ++ msg } ∧
      run_uv_command args (.completed r) = r ∧
      uv_timeout_seconds = 300 :=
  fun _ _ _ => ⟨rfl, rfl, rfl, rfl⟩

/-! ## Claim C9 — child environment of the process runner -/

/-- C9: the child environment built by `run_uv_command` is the current
process environment with exactly `VIRTUAL_ENV`, `PYTHONPATH` and
`PYTHONHOME` removed: looking up any of the three yields nothing, and
looking up any other variable yields exactly its original value. -/
theorem cleaned_env_lookup (environ : List (String × String)) (k : String) :
    (k ∈ stripped_env_vars → (cleaned_env environ).lookup k = none) ∧
    (k ∉ stripped_env_vars → (cleaned_env environ).lookup k = environ.lookup k) := by
  induction environ with
  | nil => exact ⟨fun _ => rfl, fun _ => rfl⟩
  | cons p t ih =>
    obtain ⟨a, b⟩ := p
    unfold cleaned_env at ih ⊢
    rw [List.filter_cons]
    by_cases hp : a ∈ stripped_env_vars
    · have hc : (!stripped_env_vars.contains (a, b).1) = false := by
        simp only [Bool.not_eq_false']
        exact (contains_eq_mem_str _ _).2 hp
      simp only [hc, Bool.false_eq_true, if_false]
      refine ⟨fun hk => ih.1 hk, fun hk => ?_⟩
      have hne : k ≠ a := fun h => hk (h ▸ hp)
      rw [ih.2 hk, lookup_cons_str, if_neg hne]
    · have hc : (!stripped_env_vars.contains (a, b).1) = true := by
        simp only [Bool.not_eq_true']
        rw [← Bool.not_eq_true]
        intro hcontra
        exact hp ((contains_eq_mem_str _ _).1 hcontra)
      simp only [hc, if_true]
      constructor
      · intro hk
        have hne : k ≠ a := fun h => hp (h ▸ hk)
        rw [lookup_cons_str, if_neg hne]
        exact ih.1 hk
      · intro hk
        rw [lookup_cons_str, lookup_cons_str]
        by_cases hka : k = a
        · rw [if_pos hka, if_pos hka]
        · rw [if_neg hka, if_neg hka, ih.2 hk]

/-- Witness for C9 at a concrete process environment: the virtual-env
marker is stripped and `PATH` passes through unchanged. -/
theorem cleaned_env_lookup_witness :
    (cleaned_env demoEnviron).lookup "VIRTUAL_ENV" = none ∧
    (cleaned_env demoEnviron).lookup "PATH" = demoEnviron.lookup "PATH" :=
  ⟨(cleaned_env_lookup demoEnviron "VIRTUAL_ENV").1 (by decide),
   (cleaned_env_lookup demoEnviron "PATH").2 (by decide)⟩

/-! ## Claim C4 — counterexample -/

/-- C4 as stated is false: the filename `a/../b` contains a `..` segment,
yet `get_safe_file_path` accepts it (the segment cancels inside the root,
so the resolve-then-check design returns `<root>/b` instead of failing
with `PathTraversal`). -/
theorem safe_path_accepts_inner_dotdot :
    ".." ∈ ["a", "..", "b"] ∧
    get_safe_file_path demoRoot (false, ["a", "..", "b"]) =
      .ok (demoRoot ++ ["b"]) := by decide

/-! ## Claim C5 — counterexample -/

/-- C5 as stated is false: the distinct raw identifiers `ab` and `a.b`
are both accepted by `get_env_path` and sanitize to the same directory
(the sanitizer deletes disallowed characters instead of rejecting them,
so it is not injective on accepted inputs). -/
theorem get_env_path_collision :
    "ab".data ≠ "a.b".data ∧
    get_env_path demoEnvsDir "ab".data = .ok (demoEnvsDir ++ ["ab"]) ∧
    get_env_path demoEnvsDir "a.b".data = .ok (demoEnvsDir ++ ["ab"]) := by
  decide

/-! ## Claim C8 — counterexample -/

/-- C8 as stated is false: the one-character content `"\x00"` is valid
UTF-8, and writing it to `f.bin` succeeds, but reading the file back
classifies it as binary (null byte in the first 1024 bytes) and returns a
base64 payload, not the text content unchanged. -/
theorem write_read_nul_byte_not_text :
    write_file demoEnvsDir [demoRoot] [] "abc".data (false, ["f.bin"]) [0] =
      .ok ([(demoRoot ++ ["f.bin"], 1, [0])], 1) ∧
    read_file demoEnvsDir [demoRoot] [(demoRoot ++ ["f.bin"], 1, [0])]
        "abc".data (false, ["f.bin"]) none =
      .ok (.binaryFile (false, ["f.bin"]) "application/octet-stream"
        "AA==".data) ∧
    read_file demoEnvsDir [demoRoot] [(demoRoot ++ ["f.bin"], 1, [0])]
        "abc".data (false, ["f.bin"]) none ≠
      .ok (.textFile (false, ["f.bin"]) "text/plain" [0]) := by decide

/-! ## Claim C3 — rollback of a failed environment creation -/

/-- C3: when the external manager's `init` exits non-zero, `_create_env`
removes the freshly created environment directory and everything the
`init` invocation created below it, so the filesystem is restored to its
original state and the `InitializationFailed` error carries the captured
stderr.  Hypotheses: the environment directory did not exist before the
call (and hence nothing below it existed), and — since `init` runs with
the new directory as its working directory — whatever it created lies
below that directory. -/
theorem create_env_rollback (envsDir : List String) (fs : List (List String))
    (envId : List Char) (packages : Option (List String))
    (initRes : CompletedProcess) (initCreated : List (List String))
    (addRes : CompletedProcess) (envPath : List String)
    (henv : get_env_path envsDir envId = .ok envPath)
    (hnew : envPath ∉ fs)
    (hfail : initRes.returncode ≠ 0)
    (hcreated : ∀ p ∈ initCreated, envPath <+: p)
    (hfs : ∀ p ∈ fs, ¬ envPath <+: p) :
    create_env envsDir fs envId packages initRes initCreated addRes =
      (fs, .error (.initializationFailed initRes.stderr)) := by
  have hfilter : (fs ++ envPath :: initCreated).filter
      (fun p => !(envPath.isPrefixOf p)) = fs := by
    rw [List.filter_append, List.filter_cons]
    have h1 : fs.filter (fun p => !(envPath.isPrefixOf p)) = fs := by
      refine List.filter_eq_self.2 (fun p hp => ?_)
      simp only [Bool.not_eq_true']
      rw [← Bool.not_eq_true]
      intro hc
      exact hfs p hp (List.isPrefixOf_iff_prefix.1 hc)
    have h2 : (envPath.isPrefixOf envPath) = true :=
      List.isPrefixOf_iff_prefix.2 (List.prefix_refl _)
    have h3 : initCreated.filter (fun p => !(envPath.isPrefixOf p)) = [] := by
      refine List.filter_eq_nil_iff.2 (fun p hp => ?_)
      simp only [Bool.not_eq_true']
      intro hfalse
      simp [List.isPrefixOf_iff_prefix.2 (hcreated p hp)] at hfalse
    rw [h1, h2, h3]
    simp
  simp only [create_env, henv]
  rw [if_neg hnew, if_pos hfail, hfilter]

/-- Witness for C3: a failed creation of environment `abc` on a concrete
filesystem leaves the filesystem exactly as it was and reports the
initialization failure with the captured stderr. -/
theorem create_env_rollback_witness :
    create_env demoEnvsDir [demoEnvsDir] "abc".data none
        { args := ["init", "--lib"], returncode := 1, stdout := "",
          stderr := "boom" }
        [demoRoot ++ ["pyproject.toml"]]
        { args := [], returncode := 0, stdout := "", stderr := "" } =
      ([demoEnvsDir], .error (.initializationFailed "boom")) :=
  create_env_rollback demoEnvsDir [demoEnvsDir] "abc".data none
    { args := ["init", "--lib"], returncode := 1, stdout := "",
      stderr := "boom" }
    [demoRoot ++ ["pyproject.toml"]]
    { args := [], returncode := 0, stdout := "", stderr := "" }
    demoRoot (by decide) (by decide) (by decide)
    (by intro p hp; simp at hp; rw [hp]; exact ⟨["pyproject.toml"], rfl⟩)
    (by intro p hp; simp at hp; rw [hp]; decide)

/-! ## Claim C4 — amended theorem -/

/-- Resolution leaves a `..`-free suffix untouched. -/
theorem resolveComps_no_dotdot (l : List String) :
    ∀ acc, (∀ s ∈ l, s ≠ "..") → resolveComps acc l = acc ++ l := by
  induction l with
  | nil => intro acc _; simp [resolveComps]
  | cons s t ih =>
    intro acc h
    rw [resolveComps, if_neg (h s (by simp)),
      ih (acc ++ [s]) (fun x hx => h x (by simp [hx]))]
    simp

/-- Resolution distributes over append. -/
theorem resolveComps_append (l₁ l₂ : List String) :
    ∀ acc, resolveComps acc (l₁ ++ l₂) =
      resolveComps (resolveComps acc l₁) l₂ := by
  induction l₁ with
  | nil => intro acc; rfl
  | cons s t ih =>
    intro acc
    rw [List.cons_append, resolveComps, resolveComps]
    by_cases hs : s = ".."
    · rw [if_pos hs, if_pos hs, ih]
    · rw [if_neg hs, if_neg hs, ih]

/-- A run of `k` `..` components ascends `k` levels (clamped at the root). -/
theorem resolveComps_ups (k : Nat) :
    ∀ acc : List String, resolveComps acc (List.replicate k "..") =
      acc.take (acc.length - k) := by
  induction k with
  | zero => intro acc; simp [resolveComps]
  | succ k ih =>
    intro acc
    rw [List.replicate_succ, resolveComps, if_pos rfl, ih]
    have hlen : acc.dropLast.length - k = acc.length - (k + 1) := by
      simp only [List.length_dropLast]; omega
    rw [hlen, List.dropLast_eq_take, List.take_take]
    congr 1
    omega

/-- Printing distributes over append. -/
theorem pathChars_append (a b : List String) :
    pathChars (a ++ b) = pathChars a ++ pathChars b := by
  simp [pathChars]

/-- Printing a nonempty path yields a nonempty string. -/
theorem pathChars_ne_nil (l : List String) (h : l ≠ []) : pathChars l ≠ [] := by
  cases l with
  | nil => exact absurd rfl h
  | cons s t => simp [pathChars]

/-- The printed form of a strict lexical ancestor is strictly shorter. -/
theorem length_pathStr_take_lt (env : List String)
    (hwf : ∀ s ∈ env, s ≠ "") (hne : env ≠ []) (m : Nat)
    (hm : m < env.length) :
    (pathStr (env.take m)).length < (pathStr env).length := by
  have henv : pathStr env = pathChars env := by rw [pathStr, if_neg hne]
  cases hmz : m with
  | zero =>
    rw [List.take_zero, pathStr, if_pos rfl]
    cases env with
    | nil => exact absurd rfl hne
    | cons s t =>
      have hs : s ≠ "" := hwf s (by simp)
      have hsd : s.data ≠ [] := fun h => hs (by
        cases s with
        | mk d => simp at h; rw [h])
      rw [henv]
      simp only [pathChars, List.flatMap_cons, List.length_cons,
        List.length_append, List.length]
      cases hd : s.data with
      | nil => exact absurd hd hsd
      | cons c cs => simp [hd]
  | succ m' =>
    subst hmz
    have htake : env.take (m' + 1) ≠ [] := by
      cases env with
      | nil => exact absurd rfl hne
      | cons s t => simp [List.take]
    rw [pathStr, if_neg htake, henv]
    conv_rhs => rw [← List.take_append_drop (m' + 1) env]
    rw [pathChars_append, List.length_append]
    have hdrop : env.drop (m' + 1) ≠ [] := by
      intro h
      have := List.drop_eq_nil_iff.1 h
      omega
    have := pathChars_ne_nil _ hdrop
    have : 0 < (pathChars (env.drop (m' + 1))).length :=
      List.length_pos.2 this
    omega

/-- C4 amended: the confinement guard rejects a filename made of `k ≥ 1`
`..` components (which resolves to a strict lexical ancestor of the
environment root), and rejects an absolute filename whose printed
resolution does not start with the root's printed form.
(As stated the claim is false: a `..` segment that cancels inside the
root, such as `a/../b`, is accepted, and so is an absolute path pointing
back inside the root.) -/
theorem safe_path_rejects_ascent_and_outside
    (envPath : List String) (hwf : WfPath envPath) (hne : envPath ≠ []) :
    (∀ k, 1 ≤ k →
      get_safe_file_path envPath (false, List.replicate k "..") =
        .error .pathTraversal) ∧
    (∀ segs : List String,
      (pathStr envPath).isPrefixOf (pathStr (resolveComps [] segs)) = false →
      get_safe_file_path envPath (true, segs) = .error .pathTraversal) := by
  have hnodot : ∀ s ∈ envPath, s ≠ ".." := fun s hs => (hwf s hs).2.2
  have hres : resolveComps [] envPath = envPath := by
    rw [resolveComps_no_dotdot envPath [] hnodot]; rfl
  constructor
  · intro k hk
    have hreq : resolveComps [] (envPath ++ List.replicate k "..") =
        envPath.take (envPath.length - k) := by
      rw [resolveComps_append, hres, resolveComps_ups]
    have heq : get_safe_file_path envPath (false, List.replicate k "..") =
        if (pathStr (resolveComps [] envPath)).isPrefixOf
            (pathStr (resolveComps [] (envPath ++ List.replicate k ".."))) then
          .ok (resolveComps [] (envPath ++ List.replicate k ".."))
        else .error .pathTraversal := rfl
    rw [heq, hres, hreq]
    have hlt : (pathStr (envPath.take (envPath.length - k))).length <
        (pathStr envPath).length := by
      refine length_pathStr_take_lt envPath (fun s hs => (hwf s hs).1) hne _ ?_
      have : 0 < envPath.length := List.length_pos.2 hne
      omega
    have hcond : ¬((pathStr envPath).isPrefixOf
        (pathStr (envPath.take (envPath.length - k))) = true) := fun hpre =>
      absurd ((List.isPrefixOf_iff_prefix.1 hpre).length_le) (by omega)
    rw [if_neg hcond]
  · intro segs hfalse
    have heq : get_safe_file_path envPath (true, segs) =
        if (pathStr (resolveComps [] envPath)).isPrefixOf
            (pathStr (resolveComps [] segs)) then
          .ok (resolveComps [] segs)
        else .error .pathTraversal := rfl
    rw [heq, hres]
    have hcond : ¬((pathStr envPath).isPrefixOf
        (pathStr (resolveComps [] segs)) = true) := fun hpre => by
      rw [hfalse] at hpre
      exact Bool.false_ne_true hpre
    rw [if_neg hcond]

/-- Witness for the amended C4: at the concrete root of environment
`abc`, the filename `..` and the absolute filename `/etc/passwd` both
fail with `PathTraversal`. -/
theorem safe_path_rejects_witness :
    get_safe_file_path demoRoot (false, List.replicate 1 "..") =
      .error .pathTraversal ∧
    get_safe_file_path demoRoot (true, ["etc", "passwd"]) =
      .error .pathTraversal :=
  ⟨(safe_path_rejects_ascent_and_outside demoRoot (by decide) (by decide)).1
      1 (by decide),
   (safe_path_rejects_ascent_and_outside demoRoot (by decide) (by decide)).2
      ["etc", "passwd"] (by decide)⟩

/-! ## Claim C5 — amended theorem -/

/-- A character kept by the sanitizer is not whitespace. -/
theorem allowed_not_ws {c : Char} (h : allowedChar c = true) :
    c.isWhitespace = false := by
  rw [← Bool.not_eq_true]
  intro hw
  simp only [Char.isWhitespace, Bool.or_eq_true, decide_eq_true_eq] at hw
  rcases hw with ((h1 | h1) | h1) | h1 <;> subst h1 <;>
    exact absurd h (by decide)

/-- Dropping leading whitespace does nothing when no element is whitespace. -/
theorem dropWhile_ws_eq_self (l : List Char)
    (h : ∀ c ∈ l, Char.isWhitespace c = false) :
    l.dropWhile Char.isWhitespace = l := by
  cases l with
  | nil => rfl
  | cons a t =>
    rw [List.dropWhile_cons, h a (by simp)]
    simp

/-- The sanitizer is the identity on identifiers made of allowed
characters only. -/
theorem sanitize_id_allowed (envId : List Char)
    (h : ∀ c ∈ envId, allowedChar c = true) : sanitize_id envId = envId := by
  have hfilter : envId.filter allowedChar = envId := List.filter_eq_self.2 h
  have hws : ∀ c ∈ envId, Char.isWhitespace c = false :=
    fun c hc => allowed_not_ws (h c hc)
  rw [sanitize_id, hfilter, stripWs, dropWhile_ws_eq_self envId hws,
    dropWhile_ws_eq_self _ (fun c hc => hws c (List.mem_reverse.1 hc)),
    List.reverse_reverse]

/-- C5 amended: an identifier whose sanitized form is empty is rejected
with `InvalidIdentifier`; and on identifiers that consist only of allowed
characters (alphanumerics, `-`, `_`) the sanitizer is the identity, so two
distinct such identifiers resolve to two distinct directories.  (As
stated the claim is false: sanitization is not injective on all accepted
inputs — `ab` and `a.b` collide.) -/
theorem get_env_path_empty_reject_and_allowed_inj :
    (∀ (envsDir : List String) (envId : List Char),
      sanitize_id envId = [] →
      get_env_path envsDir envId = .error .invalidIdentifier) ∧
    (∀ (envsDir : List String) (id1 id2 : List Char),
      (∀ c ∈ id1, allowedChar c = true) → (∀ c ∈ id2, allowedChar c = true) →
      id1 ≠ [] → id2 ≠ [] → id1 ≠ id2 →
      get_env_path envsDir id1 = .ok (envsDir ++ [String.mk id1]) ∧
      get_env_path envsDir id2 = .ok (envsDir ++ [String.mk id2]) ∧
      envsDir ++ [String.mk id1] ≠ envsDir ++ [String.mk id2]) := by
  constructor
  · intro envsDir envId hempty
    rw [get_env_path]
    simp only [hempty]
    rfl
  · intro envsDir id1 id2 h1 h2 hne1 hne2 hne
    have s1 : sanitize_id id1 = id1 := sanitize_id_allowed id1 h1
    have s2 : sanitize_id id2 = id2 := sanitize_id_allowed id2 h2
    refine ⟨?_, ?_, ?_⟩
    · rw [get_env_path]; simp only [s1]; rw [if_neg hne1]
    · rw [get_env_path]; simp only [s2]; rw [if_neg hne2]
    · intro hcollision
      have hlast : String.mk id1 = String.mk id2 := by
        have := List.append_cancel_left hcollision
        simpa using this
      injection hlast with hdata
      exact hne hdata

/-- Witness for the amended C5: an all-punctuation identifier is rejected,
and the distinct allowed identifiers `abc` and `abd` resolve to distinct
directories. -/
theorem get_env_path_amended_witness :
    get_env_path demoEnvsDir ".!.".data = .error .invalidIdentifier ∧
    (get_env_path demoEnvsDir "abc".data =
        .ok (demoEnvsDir ++ [String.mk "abc".data]) ∧
      get_env_path demoEnvsDir "abd".data =
        .ok (demoEnvsDir ++ [String.mk "abd".data]) ∧
      demoEnvsDir ++ [String.mk "abc".data] ≠
        demoEnvsDir ++ [String.mk "abd".data]) :=
  ⟨get_env_path_empty_reject_and_allowed_inj.1 demoEnvsDir ".!.".data
      (by decide),
   get_env_path_empty_reject_and_allowed_inj.2 demoEnvsDir "abc".data
      "abd".data (by decide) (by decide) (by decide) (by decide) (by decide)⟩

/-! ## UTF-8 round trip and length lemmas -/

/-- Decoding one encoded valid code point consumes exactly its bytes. -/
theorem utf8Run_encodeChar (c : Nat) (h : ValidCodepoint c) (t : List Nat) :
    utf8Run 0 0 0 0 (utf8EncodeChar c ++ t) =
      (utf8Run 0 0 0 0 t).map (c :: ·) := by
  obtain ⟨hlt, hsur⟩ := h
  by_cases h1 : c < 0x80
  · rw [utf8EncodeChar, if_pos h1]
    show utf8Run 0 0 0 0 (c :: t) = _
    rw [utf8Run, if_pos h1]
  · by_cases h2 : c < 0x800
    · rw [utf8EncodeChar, if_neg h1, if_pos h2]
      show utf8Run 0 0 0 0 ((0xC0 + c / 0x40) :: (0x80 + c % 0x40) :: t) = _
      rw [utf8Run, if_neg (by omega), if_neg (by omega), if_pos (by omega)]
      rw [utf8Run, if_pos (by constructor <;> omega)]
      have harith : (0xC0 + c / 0x40 - 0xC0) * 0x40 +
          (0x80 + c % 0x40 - 0x80) = c := by omega
      rw [harith]
    · by_cases h3 : c < 0x10000
      · rw [utf8EncodeChar, if_neg h1, if_neg h2, if_pos h3]
        show utf8Run 0 0 0 0 ((0xE0 + c / 0x1000) ::
          (0x80 + c / 0x40 % 0x40) :: (0x80 + c % 0x40) :: t) = _
        by_cases he0 : c < 0x1000
        · have g1 : ¬(0xE0 + c / 0x1000 < 0x80) := by omega
          have g2 : ¬(0xE0 + c / 0x1000 < 0xC2) := by omega
          have g3 : ¬(0xE0 + c / 0x1000 < 0xE0) := by omega
          have g4 : 0xE0 + c / 0x1000 = 0xE0 := by omega
          rw [utf8Run, if_neg g1, if_neg g2, if_neg g3, if_pos g4]
          rw [utf8Run, if_pos (by constructor <;> omega)]
          rw [utf8Run, if_pos (by constructor <;> omega)]
          have harith : (0 * 0x40 + (0x80 + c / 0x40 % 0x40 - 0x80)) * 0x40 +
              (0x80 + c % 0x40 - 0x80) = c := by omega
          rw [harith]
        · by_cases hed : 0xD000 ≤ c ∧ c < 0xE000
          · have hc : 0xD000 ≤ c ∧ c < 0xD800 := by omega
            have g1 : ¬(0xE0 + c / 0x1000 < 0x80) := by omega
            have g2 : ¬(0xE0 + c / 0x1000 < 0xC2) := by omega
            have g3 : ¬(0xE0 + c / 0x1000 < 0xE0) := by omega
            have g4 : ¬(0xE0 + c / 0x1000 = 0xE0) := by omega
            have g5 : 0xE0 + c / 0x1000 = 0xED := by omega
            rw [utf8Run, if_neg g1, if_neg g2, if_neg g3, if_neg g4,
              if_pos g5]
            rw [utf8Run, if_pos (by constructor <;> omega)]
            rw [utf8Run, if_pos (by constructor <;> omega)]
            have harith : (0xD * 0x40 + (0x80 + c / 0x40 % 0x40 - 0x80)) *
                0x40 + (0x80 + c % 0x40 - 0x80) = c := by omega
            rw [harith]
          · have g1 : ¬(0xE0 + c / 0x1000 < 0x80) := by omega
            have g2 : ¬(0xE0 + c / 0x1000 < 0xC2) := by omega
            have g3 : ¬(0xE0 + c / 0x1000 < 0xE0) := by omega
            have g4 : ¬(0xE0 + c / 0x1000 = 0xE0) := by omega
            have g5 : ¬(0xE0 + c / 0x1000 = 0xED) := by omega
            have g6 : 0xE0 + c / 0x1000 < 0xF0 := by omega
            rw [utf8Run, if_neg g1, if_neg g2, if_neg g3, if_neg g4,
              if_neg g5, if_pos g6]
            rw [utf8Run, if_pos (by constructor <;> omega)]
            rw [utf8Run, if_pos (by constructor <;> omega)]
            have harith : ((0xE0 + c / 0x1000 - 0xE0) * 0x40 +
                (0x80 + c / 0x40 % 0x40 - 0x80)) * 0x40 +
                (0x80 + c % 0x40 - 0x80) = c := by omega
            rw [harith]
      · rw [utf8EncodeChar, if_neg h1, if_neg h2, if_neg h3]
        show utf8Run 0 0 0 0 ((0xF0 + c / 0x40000) ::
          (0x80 + c / 0x1000 % 0x40) :: (0x80 + c / 0x40 % 0x40) ::
          (0x80 + c % 0x40) :: t) = _
        by_cases hf0 : c < 0x40000
        · have g1 : ¬(0xF0 + c / 0x40000 < 0x80) := by omega
          have g2 : ¬(0xF0 + c / 0x40000 < 0xC2) := by omega
          have g3 : ¬(0xF0 + c / 0x40000 < 0xE0) := by omega
          have g4 : ¬(0xF0 + c / 0x40000 = 0xE0) := by omega
          have g5 : ¬(0xF0 + c / 0x40000 = 0xED) := by omega
          have g6 : ¬(0xF0 + c / 0x40000 < 0xF0) := by omega
          have g7 : 0xF0 + c / 0x40000 = 0xF0 := by omega
          rw [utf8Run, if_neg g1, if_neg g2, if_neg g3, if_neg g4,
            if_neg g5, if_neg g6, if_pos g7]
          rw [utf8Run, if_pos (by constructor <;> omega)]
          rw [utf8Run, if_pos (by constructor <;> omega)]
          rw [utf8Run, if_pos (by constructor <;> omega)]
          have harith : ((0 * 0x40 + (0x80 + c / 0x1000 % 0x40 - 0x80)) *
              0x40 + (0x80 + c / 0x40 % 0x40 - 0x80)) * 0x40 +
              (0x80 + c % 0x40 - 0x80) = c := by omega
          rw [harith]
        · by_cases hf4 : c < 0x100000
          · have g1 : ¬(0xF0 + c / 0x40000 < 0x80) := by omega
            have g2 : ¬(0xF0 + c / 0x40000 < 0xC2) := by omega
            have g3 : ¬(0xF0 + c / 0x40000 < 0xE0) := by omega
            have g4 : ¬(0xF0 + c / 0x40000 = 0xE0) := by omega
            have g5 : ¬(0xF0 + c / 0x40000 = 0xED) := by omega
            have g6 : ¬(0xF0 + c / 0x40000 < 0xF0) := by omega
            have g7 : ¬(0xF0 + c / 0x40000 = 0xF0) := by omega
            have g8 : 0xF0 + c / 0x40000 < 0xF4 := by omega
            rw [utf8Run, if_neg g1, if_neg g2, if_neg g3, if_neg g4,
              if_neg g5, if_neg g6, if_neg g7, if_pos g8]
            rw [utf8Run, if_pos (by constructor <;> omega)]
            rw [utf8Run, if_pos (by constructor <;> omega)]
            rw [utf8Run, if_pos (by constructor <;> omega)]
            have harith : (((0xF0 + c / 0x40000 - 0xF0) * 0x40 +
                (0x80 + c / 0x1000 % 0x40 - 0x80)) * 0x40 +
                (0x80 + c / 0x40 % 0x40 - 0x80)) * 0x40 +
                (0x80 + c % 0x40 - 0x80) = c := by omega
            rw [harith]
          · have g1 : ¬(0xF0 + c / 0x40000 < 0x80) := by omega
            have g2 : ¬(0xF0 + c / 0x40000 < 0xC2) := by omega
            have g3 : ¬(0xF0 + c / 0x40000 < 0xE0) := by omega
            have g4 : ¬(0xF0 + c / 0x40000 = 0xE0) := by omega
            have g5 : ¬(0xF0 + c / 0x40000 = 0xED) := by omega
            have g6 : ¬(0xF0 + c / 0x40000 < 0xF0) := by omega
            have g7 : ¬(0xF0 + c / 0x40000 = 0xF0) := by omega
            have g8 : ¬(0xF0 + c / 0x40000 < 0xF4) := by omega
            have g9 : 0xF0 + c / 0x40000 = 0xF4 := by omega
            rw [utf8Run, if_neg g1, if_neg g2, if_neg g3, if_neg g4,
              if_neg g5, if_neg g6, if_neg g7, if_neg g8, if_pos g9]
            rw [utf8Run, if_pos (by constructor <;> omega)]
            rw [utf8Run, if_pos (by constructor <;> omega)]
            rw [utf8Run, if_pos (by constructor <;> omega)]
            have harith : ((4 * 0x40 + (0x80 + c / 0x1000 % 0x40 - 0x80)) *
                0x40 + (0x80 + c / 0x40 % 0x40 - 0x80)) * 0x40 +
                (0x80 + c % 0x40 - 0x80) = c := by omega
            rw [harith]

/-- UTF-8 decoding inverts UTF-8 encoding on encodable strings. -/
theorem utf8Decode_encode (content : List Nat)
    (hvalid : ∀ c ∈ content, ValidCodepoint c) :
    utf8Decode (utf8Encode content) = some content := by
  unfold utf8Decode
  induction content with
  | nil => rfl
  | cons c s ih =>
    simp only [utf8Encode, List.flatMap_cons] at *
    rw [utf8Run_encodeChar c (hvalid c (by simp)),
      ih (fun x hx => hvalid x (List.mem_cons_of_mem _ hx))]
    rfl

/-- Each code point encodes to at least one byte, and to at least two
when it is outside ASCII. -/
theorem utf8EncodeChar_length (c : Nat) :
    1 ≤ (utf8EncodeChar c).length ∧
      (0x80 ≤ c → 2 ≤ (utf8EncodeChar c).length) := by
  unfold utf8EncodeChar
  split_ifs with h1 h2 h3 <;> simp
  omega

/-- The encoded byte count is at least the code point count, strictly
greater when some code point is outside ASCII. -/
theorem utf8Encode_length (s : List Nat) :
    s.length ≤ (utf8Encode s).length ∧
      ((∃ c ∈ s, 0x80 ≤ c) → s.length < (utf8Encode s).length) := by
  induction s with
  | nil => simp [utf8Encode]
  | cons c t ih =>
    simp only [utf8Encode, List.flatMap_cons, List.length_append,
      List.length_cons] at *
    obtain ⟨hc1, hc2⟩ := utf8EncodeChar_length c
    refine ⟨by omega, ?_⟩
    rintro ⟨c', hc', hge⟩
    rw [List.mem_cons] at hc'
    rcases hc' with rfl | hc'
    · have := hc2 hge
      omega
    · have := ih.2 ⟨c', hc', hge⟩
      omega

/-! ## Reduction helpers for the file services -/

/-- Reduction of `read_file`: under the success hypotheses it reduces to the size gate and
classification chain. -/
theorem read_file_reduce (envsDir : List String) (dirs : List (List String))
    (files : List FileEntry) (envId : List Char) (filename : PyPath)
    (mimeGuess : Option String) (envPath filePath : List String)
    (sz : Nat) (data : List Nat)
    (henv : get_env_path envsDir envId = .ok envPath)
    (hdir : envPath ∈ dirs)
    (hsafe : get_safe_file_path envPath filename = .ok filePath)
    (hlook : lookupFile filePath files = some (sz, data)) :
    read_file envsDir dirs files envId filename mimeGuess =
      if sz > 10 * 1024 * 1024 then .error .fileTooLarge
      else if mimeStartsWith mimeGuess "image/" then
        .ok (.image (base64Encode data) (mimeGuess.getD "image/png"))
      else if 0 ∈ data.take 1024 then
        .ok (.binaryFile filename (mimeGuess.getD "application/octet-stream")
          (base64Encode data))
      else
        .ok (.textFile filename (mimeGuess.getD "text/plain")
          (decodeText data)) := by
  simp only [read_file, henv]
  rw [if_pos hdir]
  simp only [hsafe, hlook]

/-- Reduction of `write_file`: under the success hypotheses it stores the UTF-8 encoding
and reports the code point count. -/
theorem write_file_reduce (envsDir : List String) (dirs : List (List String))
    (files : List FileEntry) (envId : List Char) (filename : PyPath)
    (content : List Nat) (envPath filePath : List String)
    (henv : get_env_path envsDir envId = .ok envPath)
    (hdir : envPath ∈ dirs)
    (hsafe : get_safe_file_path envPath filename = .ok filePath)
    (hvalid : ∀ c ∈ content, ValidCodepoint c) :
    write_file envsDir dirs files envId filename content =
      .ok (setFile filePath (utf8Encode content) files, content.length) := by
  simp only [write_file, henv]
  rw [if_pos hdir]
  simp only [hsafe]
  rw [if_pos hvalid]

/-- A freshly stored file is found with its byte count as stat size. -/
theorem lookupFile_setFile (p : List String) (bytes : List Nat)
    (files : List FileEntry) :
    lookupFile p (setFile p bytes files) = some (bytes.length, bytes) := by
  simp [setFile, lookupFile]

/-! ## Claim C6 — the 10 MiB size gate of `read_file` -/

/-- C6: for an existing, confined file, `read_file` fails with
`FileTooLarge` exactly when the stat size exceeds 10 × 1024 × 1024 bytes;
the rejection depends only on the stat size, not on the stored content
(the check runs before the content is used), and a file whose size is at
most the limit (in particular exactly 10 MiB) always yields a result. -/
theorem read_file_size_gate (envsDir : List String) (dirs : List (List String))
    (files : List FileEntry) (envId : List Char) (filename : PyPath)
    (mimeGuess : Option String) (envPath filePath : List String)
    (sz : Nat) (data : List Nat)
    (henv : get_env_path envsDir envId = .ok envPath)
    (hdir : envPath ∈ dirs)
    (hsafe : get_safe_file_path envPath filename = .ok filePath)
    (hlook : lookupFile filePath files = some (sz, data)) :
    (read_file envsDir dirs files envId filename mimeGuess =
        .error .fileTooLarge ↔ 10 * 1024 * 1024 < sz) ∧
    (10 * 1024 * 1024 < sz →
      ∀ (files2 : List FileEntry) (data2 : List Nat),
        lookupFile filePath files2 = some (sz, data2) →
        read_file envsDir dirs files2 envId filename mimeGuess =
          .error .fileTooLarge) ∧
    (sz ≤ 10 * 1024 * 1024 →
      ∃ r, read_file envsDir dirs files envId filename mimeGuess = .ok r) := by
  have hred := read_file_reduce envsDir dirs files envId filename mimeGuess
    envPath filePath sz data henv hdir hsafe hlook
  refine ⟨?_, ?_, ?_⟩
  · rw [hred]
    constructor
    · intro hres
      by_contra hc
      rw [if_neg (by omega)] at hres
      split at hres
      · exact Except.noConfusion hres
      · split at hres <;> exact Except.noConfusion hres
    · intro hgt
      rw [if_pos hgt]
  · intro hgt files2 data2 hlook2
    rw [read_file_reduce envsDir dirs files2 envId filename mimeGuess
      envPath filePath sz data2 henv hdir hsafe hlook2, if_pos hgt]
  · intro hle
    rw [hred, if_neg (by omega)]
    split
    · exact ⟨_, rfl⟩
    · split
      · exact ⟨_, rfl⟩
      · exact ⟨_, rfl⟩

/-- Witness for C6: a stat size of 10 MiB + 1 byte is rejected as
`FileTooLarge` (whatever the stored bytes), and a file of exactly
10 × 1024 × 1024 bytes declared size succeeds. -/
theorem read_file_size_gate_witness :
    read_file demoEnvsDir [demoRoot]
        [(demoRoot ++ ["big.bin"], 10485761, [0])] "abc".data
        (false, ["big.bin"]) none = .error .fileTooLarge ∧
    (∃ r, read_file demoEnvsDir [demoRoot]
        [(demoRoot ++ ["ok.txt"], 10485760, [104])] "abc".data
        (false, ["ok.txt"]) none = .ok r) :=
  ⟨(read_file_size_gate demoEnvsDir [demoRoot]
      [(demoRoot ++ ["big.bin"], 10485761, [0])] "abc".data
      (false, ["big.bin"]) none demoRoot (demoRoot ++ ["big.bin"])
      10485761 [0] (by decide) (by decide) (by decide) (by decide)).1.2
      (by decide),
   (read_file_size_gate demoEnvsDir [demoRoot]
      [(demoRoot ++ ["ok.txt"], 10485760, [104])] "abc".data
      (false, ["ok.txt"]) none demoRoot (demoRoot ++ ["ok.txt"])
      10485760 [104] (by decide) (by decide) (by decide) (by decide)).2.2
      (by decide)⟩

/-! ## Claim C7 — classification trichotomy of `read_file` -/

/-- C7: a readable file (existing, confined, within the size gate) is
classified into exactly one of image, binary and text: image iff the
guessed media type starts with `image/` (regardless of content, the
result media type defaulting to `image/png`); else binary iff a null byte
occurs in the first 1024 content bytes (media type defaulting to
`application/octet-stream`); else text, whose payload is the UTF-8
decoding with Latin-1 fallback — a string in every case. -/
theorem read_file_classification (envsDir : List String)
    (dirs : List (List String)) (files : List FileEntry) (envId : List Char)
    (filename : PyPath) (mimeGuess : Option String)
    (envPath filePath : List String) (sz : Nat) (data : List Nat)
    (henv : get_env_path envsDir envId = .ok envPath)
    (hdir : envPath ∈ dirs)
    (hsafe : get_safe_file_path envPath filename = .ok filePath)
    (hlook : lookupFile filePath files = some (sz, data))
    (hsz : sz ≤ 10 * 1024 * 1024) :
    ∃ r, read_file envsDir dirs files envId filename mimeGuess = .ok r ∧
      ((∃ d m, r = .image d m) ↔ mimeStartsWith mimeGuess "image/" = true) ∧
      ((∃ m c, r = .binaryFile filename m c) ↔
        (mimeStartsWith mimeGuess "image/" = false ∧ 0 ∈ data.take 1024)) ∧
      ((∃ m c, r = .textFile filename m c) ↔
        (mimeStartsWith mimeGuess "image/" = false ∧ 0 ∉ data.take 1024)) ∧
      (∀ d m, r = .image d m →
        d = base64Encode data ∧ m = mimeGuess.getD "image/png") ∧
      (∀ m c, r = .binaryFile filename m c →
        m = mimeGuess.getD "application/octet-stream" ∧
          c = base64Encode data) ∧
      (∀ m c, r = .textFile filename m c →
        m = mimeGuess.getD "text/plain" ∧ c = decodeText data) := by
  have hred := read_file_reduce envsDir dirs files envId filename mimeGuess
    envPath filePath sz data henv hdir hsafe hlook
  rw [if_neg (by omega)] at hred
  cases himg : mimeStartsWith mimeGuess "image/" with
  | true =>
    rw [if_pos himg] at hred
    refine ⟨_, hred, ?_, ?_, ?_, ?_, ?_, ?_⟩ <;> simp
  | false =>
    rw [if_neg (by rw [himg]; exact Bool.false_ne_true)] at hred
    by_cases hnull : 0 ∈ data.take 1024
    · rw [if_pos hnull] at hred
      refine ⟨_, hred, ?_, ?_, ?_, ?_, ?_, ?_⟩ <;> simp [hnull]
    · rw [if_neg hnull] at hred
      refine ⟨_, hred, ?_, ?_, ?_, ?_, ?_, ?_⟩ <;> simp [hnull]

/-- Witness for C7 at a concrete binary file: four raw bytes starting
with a null byte and no media-type guess are classified as binary with
the default media type. -/
theorem read_file_classification_witness :
    ∃ r, read_file demoEnvsDir [demoRoot]
        [(demoRoot ++ ["t.bin"], 4, [0, 1, 2, 3])] "abc".data
        (false, ["t.bin"]) none = .ok r ∧
      ((∃ d m, r = .image d m) ↔ mimeStartsWith none "image/" = true) ∧
      ((∃ m c, r = .binaryFile (false, ["t.bin"]) m c) ↔
        (mimeStartsWith none "image/" = false ∧
          0 ∈ ([0, 1, 2, 3] : List Nat).take 1024)) ∧
      ((∃ m c, r = .textFile (false, ["t.bin"]) m c) ↔
        (mimeStartsWith none "image/" = false ∧
          0 ∉ ([0, 1, 2, 3] : List Nat).take 1024)) ∧
      (∀ d m, r = .image d m →
        d = base64Encode [0, 1, 2, 3] ∧ m = Option.getD none "image/png") ∧
      (∀ m c, r = .binaryFile (false, ["t.bin"]) m c →
        m = Option.getD none "application/octet-stream" ∧
          c = base64Encode [0, 1, 2, 3]) ∧
      (∀ m c, r = .textFile (false, ["t.bin"]) m c →
        m = Option.getD none "text/plain" ∧ c = decodeText [0, 1, 2, 3]) :=
  read_file_classification demoEnvsDir [demoRoot]
    [(demoRoot ++ ["t.bin"], 4, [0, 1, 2, 3])] "abc".data
    (false, ["t.bin"]) none demoRoot (demoRoot ++ ["t.bin"]) 4 [0, 1, 2, 3]
    (by decide) (by decide) (by decide) (by decide) (by decide)

/-! ## Claim C8 — amended round trip -/

/-- C8 amended: writing valid text content and reading it back returns
the content unchanged as the text payload, provided the file's guessed
media type is not an image type, the encoded form fits the 10 MiB gate,
and no null byte occurs in the first 1024 encoded bytes (otherwise the
read classifies the file as image or binary instead, as the
counterexample shows). -/
theorem write_read_roundtrip (envsDir : List String)
    (dirs : List (List String)) (files : List FileEntry) (envId : List Char)
    (filename : PyPath) (mimeGuess : Option String) (content : List Nat)
    (envPath filePath : List String)
    (henv : get_env_path envsDir envId = .ok envPath)
    (hdir : envPath ∈ dirs)
    (hsafe : get_safe_file_path envPath filename = .ok filePath)
    (hvalid : ∀ c ∈ content, ValidCodepoint c)
    (hsize : (utf8Encode content).length ≤ 10 * 1024 * 1024)
    (himg : mimeStartsWith mimeGuess "image/" = false)
    (hnull : 0 ∉ (utf8Encode content).take 1024) :
    write_file envsDir dirs files envId filename content =
      .ok (setFile filePath (utf8Encode content) files, content.length) ∧
    read_file envsDir dirs (setFile filePath (utf8Encode content) files)
        envId filename mimeGuess =
      .ok (.textFile filename (mimeGuess.getD "text/plain") content) := by
  refine ⟨write_file_reduce envsDir dirs files envId filename content
    envPath filePath henv hdir hsafe hvalid, ?_⟩
  rw [read_file_reduce envsDir dirs
    (setFile filePath (utf8Encode content) files) envId filename mimeGuess
    envPath filePath (utf8Encode content).length (utf8Encode content)
    henv hdir hsafe (lookupFile_setFile filePath (utf8Encode content) files)]
  rw [if_neg (by omega)]
  rw [if_neg (by rw [himg]; exact Bool.false_ne_true)]
  rw [if_neg hnull]
  rw [show decodeText (utf8Encode content) = content by
    rw [decodeText, utf8Decode_encode content hvalid]; rfl]

/-- Witness for the amended C8: the two-character text `hi` written to
`a.txt` is read back unchanged as the text payload. -/
theorem write_read_roundtrip_witness :
    write_file demoEnvsDir [demoRoot] [] "abc".data (false, ["a.txt"])
        [104, 105] =
      .ok (setFile (demoRoot ++ ["a.txt"]) (utf8Encode [104, 105]) [], 2) ∧
    read_file demoEnvsDir [demoRoot]
        (setFile (demoRoot ++ ["a.txt"]) (utf8Encode [104, 105]) [])
        "abc".data (false, ["a.txt"]) (some "text/plain") =
      .ok (.textFile (false, ["a.txt"]) "text/plain" [104, 105]) :=
  write_read_roundtrip demoEnvsDir [demoRoot] [] "abc".data
    (false, ["a.txt"]) (some "text/plain") [104, 105] demoRoot
    (demoRoot ++ ["a.txt"]) (by decide) (by decide) (by decide) (by decide)
    (by decide) (by decide) (by decide)

/-! ## Claim C10 — `bytes_written` counts characters, not bytes -/

/-- C10: a successful `write_file` reports `bytes_written = len(content)`,
the number of Unicode code points of the content string, while the bytes
stored on disk are its UTF-8 encoding; the reported count never exceeds,
and for content with a non-ASCII (multi-byte) character is strictly
smaller than, the number of bytes actually written. -/
theorem write_file_bytes_written (envsDir : List String)
    (dirs : List (List String)) (files : List FileEntry) (envId : List Char)
    (filename : PyPath) (content : List Nat) (envPath filePath : List String)
    (henv : get_env_path envsDir envId = .ok envPath)
    (hdir : envPath ∈ dirs)
    (hsafe : get_safe_file_path envPath filename = .ok filePath)
    (hvalid : ∀ c ∈ content, ValidCodepoint c) :
    write_file envsDir dirs files envId filename content =
      .ok (setFile filePath (utf8Encode content) files, content.length) ∧
    lookupFile filePath (setFile filePath (utf8Encode content) files) =
      some ((utf8Encode content).length, utf8Encode content) ∧
    content.length ≤ (utf8Encode content).length ∧
    ((∃ c ∈ content, 0x80 ≤ c) →
      content.length < (utf8Encode content).length) :=
  ⟨write_file_reduce envsDir dirs files envId filename content envPath
      filePath henv hdir hsafe hvalid,
   lookupFile_setFile filePath (utf8Encode content) files,
   (utf8Encode_length content).1, (utf8Encode_length content).2⟩

/-- Witness for C10: the one-character content `é` (code point 0xE9)
reports `bytes_written = 1` while two bytes are stored. -/
theorem write_file_bytes_written_witness :
    write_file demoEnvsDir [demoRoot] [] "abc".data (false, ["e.txt"])
        [0xE9] =
      .ok (setFile (demoRoot ++ ["e.txt"]) (utf8Encode [0xE9]) [], 1) ∧
    ([0xE9] : List Nat).length < (utf8Encode [0xE9]).length :=
  ⟨(write_file_bytes_written demoEnvsDir [demoRoot] [] "abc".data
      (false, ["e.txt"]) [0xE9] demoRoot (demoRoot ++ ["e.txt"])
      (by decide) (by decide) (by decide) (by decide)).1,
   (write_file_bytes_written demoEnvsDir [demoRoot] [] "abc".data
      (false, ["e.txt"]) [0xE9] demoRoot (demoRoot ++ ["e.txt"])
      (by decide) (by decide) (by decide) (by decide)).2.2.2
      ⟨0xE9, by decide, by decide⟩⟩
